import Mathlib

/-!
Shallow embedding of the dataset-regeneration script `scripts/pull-names.ts`
(CSV parsing, RGB-to-hex conversion, grouping by language, and the CSV / JSON /
SVG emitters), together with theorems settling the specification's claims.

Strings are modelled by Lean `String` (a wrapper around `List Char`); the
JavaScript functions are translated operation by operation.  JavaScript
iteration over a string visits its characters, which matches `List Char`.
-/

/-! ### JavaScript character classes and string primitives -/

/-- The character class `\s` of JavaScript regular expressions (also the set
removed by `String.prototype.trim`): space, tab, LF, VT, FF, CR, NBSP,
U+1680, U+2000..U+200A, U+2028, U+2029, U+202F, U+205F, U+3000, U+FEFF. -/
def jsSpace (c : Char) : Bool :=
  let v := c.toNat
  (v = 32) || (v = 9) || (v = 10) || (v = 11) || (v = 12) || (v = 13) ||
  (v = 160) || (v = 5760) || (decide (8192 ≤ v) && decide (v ≤ 8202)) ||
  (v = 8232) || (v = 8233) || (v = 8239) || (v = 8287) || (v = 12288) || (v = 65279)

/-- Decimal digit test, as in the regex class `\d`. -/
def isDigit (c : Char) : Bool :=
  decide (48 ≤ c.toNat) && decide (c.toNat ≤ 57)

/-- JavaScript `String.prototype.trim`: drop leading and trailing JavaScript whitespace. -/
def jsTrimList (cs : List Char) : List Char :=
  ((cs.dropWhile jsSpace).reverse.dropWhile jsSpace).reverse

/-- JavaScript `String.prototype.split` with a one-character separator: every occurrence
of the separator delimits, and `"".split(sep) = [""]`. -/
def splitChar (sep : Char) : List Char → List (List Char)
  | [] => [[]]
  | c :: cs =>
    if c = sep then [] :: splitChar sep cs
    else
      match splitChar sep cs with
      | [] => [[c]]
      | f :: rest => (c :: f) :: rest

/-! ### Decimal digits (for building `rgb(r, g, b)` inputs and number output) -/

/-- The decimal digit character for `d % 10`-style values (`d ≥ 9` yields '9';
only applied to `d < 10`). -/
def digitChar : Nat → Char
  | 0 => '0' | 1 => '1' | 2 => '2' | 3 => '3' | 4 => '4'
  | 5 => '5' | 6 => '6' | 7 => '7' | 8 => '8' | _ => '9'

/-- Numeric value of a decimal digit character. -/
def digitVal (c : Char) : Nat := c.toNat - 48

/-- Fuelled decimal rendering (fuel keeps the recursion structural so that the
kernel can evaluate it). -/
def decReprAux : Nat → Nat → List Char
  | 0, _ => []
  | fuel + 1, n =>
    if n < 10 then [digitChar n]
    else decReprAux fuel (n / 10) ++ [digitChar (n % 10)]

/-- Decimal rendering of a natural number, as JavaScript number-to-string
produces for integers. -/
def decRepr (n : Nat) : List Char := decReprAux (n + 1) n

/-- Value of a list of decimal digit characters, as `parseInt(·, 10)` computes
on a pure digit string. -/
def parseDigits (ds : List Char) : Nat :=
  ds.foldl (fun a c => a * 10 + digitVal c) 0

/-! ### The RGB regular expression of `rgbToHex`

The source matches `rgb\s*\(\s*(-?\d+)\s*,\s*(-?\d+)\s*,\s*(-?\d+)\s*\)`
anywhere in the string (leftmost match).  Because every `\s*` and `\d+` is
followed by a character outside its class, greedy maximal-munch scanning is
exactly the regex semantics, so the matcher below is deterministic. -/

/-- Consume the literal characters `rgb`. -/
def stripRGB : List Char → Option (List Char)
  | 'r' :: 'g' :: 'b' :: rest => some rest
  | _ => none

/-- Consume one expected character. -/
def expectChar (c : Char) : List Char → Option (List Char)
  | x :: rest => if x = c then some rest else none
  | [] => none

/-- Consume `-?\d+` and return its `parseInt` value (the capture groups of the
source regex are fed to `parseInt(·, 10)`). -/
def readNum (cs : List Char) : Option (Int × List Char) :=
  match cs with
  | [] => none
  | c :: rest =>
    if c = '-' then
      let ds := rest.takeWhile isDigit
      if ds.isEmpty then none
      else some (-(parseDigits ds : Int), rest.drop ds.length)
    else
      let ds := (c :: rest).takeWhile isDigit
      if ds.isEmpty then none
      else some ((parseDigits ds : Int), (c :: rest).drop ds.length)

/-- Attempt the RGB pattern at the start of the character list. -/
def matchRGBAt (cs : List Char) : Option (Int × Int × Int) :=
  match stripRGB cs with
  | none => none
  | some cs =>
  match expectChar '(' (cs.dropWhile jsSpace) with
  | none => none
  | some cs =>
  match readNum (cs.dropWhile jsSpace) with
  | none => none
  | some (r, cs) =>
  match expectChar ',' (cs.dropWhile jsSpace) with
  | none => none
  | some cs =>
  match readNum (cs.dropWhile jsSpace) with
  | none => none
  | some (g, cs) =>
  match expectChar ',' (cs.dropWhile jsSpace) with
  | none => none
  | some cs =>
  match readNum (cs.dropWhile jsSpace) with
  | none => none
  | some (b, cs) =>
  match expectChar ')' (cs.dropWhile jsSpace) with
  | none => none
  | some _ => some (r, g, b)

/-- Leftmost match of the RGB pattern, as `String.prototype.match` finds. -/
def findRGB : List Char → Option (Int × Int × Int)
  | [] => none
  | c :: cs =>
    match matchRGBAt (c :: cs) with
    | some v => some v
    | none => findRGB cs

/-! ### Hex formatting (`c.toString(16).padStart(2, '0')`) -/

/-- Lowercase hexadecimal digit character. -/
def hexChar : Nat → Char
  | 0 => '0' | 1 => '1' | 2 => '2' | 3 => '3' | 4 => '4'
  | 5 => '5' | 6 => '6' | 7 => '7' | 8 => '8' | 9 => '9'
  | 10 => 'a' | 11 => 'b' | 12 => 'c' | 13 => 'd' | 14 => 'e' | _ => 'f'

/-- Fuelled lowercase hexadecimal rendering (JavaScript `Number.toString(16)`
for non-negative integers). -/
def natToHexAux : Nat → Nat → List Char
  | 0, _ => []
  | fuel + 1, n =>
    if n < 16 then [hexChar n]
    else natToHexAux fuel (n / 16) ++ [hexChar (n % 16)]

/-- Lowercase hexadecimal rendering of a natural number. -/
def natToHex (n : Nat) : List Char := natToHexAux (n + 1) n

/-- JavaScript `String.prototype.padStart(2, '0')`. -/
def padStart2 (cs : List Char) : List Char :=
  if cs.length < 2 then List.replicate (2 - cs.length) '0' ++ cs else cs

/-- One clamped channel rendered as two zero-padded lowercase hex digits. -/
def toHex2 (n : Int) : String := String.mk (padStart2 (natToHex n.toNat))

/-- The clamp `Math.max(0, Math.min(255, n))` from the source. -/
def clampChannel (n : Int) : Int := max 0 (min 255 n)

/-- Function `rgbToHex` from `scripts/pull-names.ts`: find the RGB pattern, clamp each
parsed channel to `[0, 255]`, format the channels as two lowercase hex digits
each and prefix `#`; on pattern mismatch warn and return the `#000000`
sentinel (the diagnostic is outside the value-level model). -/
def rgbToHex (rgb : String) : String :=
  match findRGB rgb.data with
  | none => "#000000"
  | some (r, g, b) =>
    "#" ++ toHex2 (clampChannel r) ++ toHex2 (clampChannel g) ++ toHex2 (clampChannel b)

/-! ### Decoding a `#rrggbb` string back to its channels (for the round-trip
claim: this is the verifier's inverse, not part of the source). -/

/-- Value of one lowercase hexadecimal digit character, if it is one. -/
def hexDigitVal? (c : Char) : Option Nat :=
  if isDigit c then some (c.toNat - 48)
  else if decide (97 ≤ c.toNat) && decide (c.toNat ≤ 102) then some (c.toNat - 87)
  else none

/-- Value of a two-hex-digit channel component. -/
def decodePair : List Char → Option Nat
  | [a, b] =>
    match hexDigitVal? a, hexDigitVal? b with
    | some x, some y => some (16 * x + y)
    | _, _ => none
  | _ => none

/-- Parse a `#rrggbb` string back into its three channel values. -/
def decodeHex (s : String) : Option (Nat × Nat × Nat) :=
  match s.data with
  | '#' :: rest =>
    match decodePair (rest.take 2), decodePair ((rest.drop 2).take 2),
          decodePair (rest.drop 4) with
    | some r, some g, some b => if rest.length = 6 then some (r, g, b) else none
    | _, _, _ => none
  | _ => none

/-- The string `rgb(r, g, b)` for natural channel values. -/
def mkRGBString (r g b : Nat) : String :=
  String.mk ("rgb(".data ++ decRepr r ++ ", ".data ++ decRepr g ++ ", ".data
    ++ decRepr b ++ ")".data)

/-! ### CSV parsing (`parseCSV` from `scripts/pull-names.ts`) -/

/-- The character-by-character field scanner of `parseCSV`'s data-row loop:
`"` toggles the in-quotes flag (and is never emitted), an unquoted `,` ends the
current field, anything else is appended; fields are trimmed as pushed. -/
def rowGo : List Char → List Char → Bool → List String
  | [], cur, _ => [String.mk (jsTrimList cur)]
  | c :: rest, cur, inQ =>
    if c = '"' then rowGo rest cur (!inQ)
    else if c = ',' ∧ inQ = false then String.mk (jsTrimList cur) :: rowGo rest [] inQ
    else rowGo rest (cur ++ [c]) inQ

/-- Scan one data row into its field values (initial state: empty current
field, outside quotes). -/
def scanRow (line : List Char) : List String := rowGo line [] false

/-- A parsed record: the `header ↦ value` assignments made in header order
(`obj[header] = values[i] || ''`).  A later assignment to the same key
overwrites an earlier one, so reads take the last assignment. -/
abbrev Obj := List (String × String)

/-- Property access `obj[key]`, with the absent case collapsing to the empty
string (the script only uses absent fields in falsy tests and as strings fed
to `rgbToHex`, where `undefined` and `""` behave alike). -/
def getField (o : Obj) (k : String) : String :=
  match o.reverse.lookup k with
  | some v => v
  | none => ""

/-- Zip header names with row values: `obj[header] = values[i] || ''`
(missing or empty values become the empty string). -/
def mkObj (headers : List String) (values : List String) : Obj :=
  headers.enum.map (fun p => (p.2, values.getD p.1 ""))

/-- The line list of `parseCSV`: `csv.trim().split('\n')`. -/
def csvLinesOf (csv : String) : List (List Char) :=
  splitChar '\n' (jsTrimList csv.data)

/-- The header names of `parseCSV`: `lines[0].split(',').map(h => h.trim())`
(a plain split on every comma — not quote-aware). -/
def csvHeaders (csv : String) : List String :=
  (splitChar ',' ((csvLinesOf csv).headD [])).map (fun f => String.mk (jsTrimList f))

/-- Function `parseCSV` from the source: header names from a plain comma split of the
first line, then every further line scanned with the quote-toggling field
scanner and zipped with the headers. -/
def parseCSV (csv : String) : List Obj :=
  ((csvLinesOf csv).drop 1).map (fun line => mkObj (csvHeaders csv) (scanRow line))

/-! ### Grouping by language (`groupByLanguage`) -/

/-- The grouping key: `color.lang_abv || color.lang`. -/
def langKey (c : Obj) : String :=
  if getField c "lang_abv" ≠ "" then getField c "lang_abv" else getField c "lang"

/-- One step of the grouping loop: append the record to its key's group if the
key was seen, else insert a fresh group at the end (JavaScript `Map` iterates
in insertion order). -/
def groupStep (m : List (String × List Obj)) (c : Obj) : List (String × List Obj) :=
  let k := langKey c
  if m.any (fun p => p.1 = k) then
    m.map (fun p => if p.1 = k then (p.1, p.2 ++ [c]) else p)
  else m ++ [(k, [c])]

/-- Function `groupByLanguage` from the source. -/
def groupByLanguage (colors : List Obj) : List (String × List Obj) :=
  colors.foldl groupStep []

/-- JavaScript `Map.get`: the group stored under a key, if any. -/
def findGroup (m : List (String × List Obj)) (k : String) : Option (List Obj) :=
  match m.find? (fun p => p.1 = k) with
  | some p => some p.2
  | none => none

/-! ### Emitters -/

/-- The output name of a record: `color.commonName || color.simplifiedName`. -/
def entryName (c : Obj) : String :=
  if getField c "commonName" ≠ "" then getField c "commonName"
  else getField c "simplifiedName"

/-- The call `name.replace(/"/g, '""')`: double every quote character. -/
def doubleQuotes : List Char → List Char
  | [] => []
  | c :: cs => if c = '"' then '"' :: '"' :: doubleQuotes cs else c :: doubleQuotes cs

/-- The CSV emitter's name escaping: wrap in quotes (doubling any inner quote)
exactly when the name contains a comma or a quote. -/
def escapeCSVName (name : String) : String :=
  if name.data.contains ',' || name.data.contains '"' then
    "\"" ++ String.mk (doubleQuotes name.data) ++ "\""
  else name

/-- One data line of the CSV emitter: `${escapedName},${hex}`. -/
def csvLine (c : Obj) : String :=
  escapeCSVName (entryName c) ++ "," ++ rgbToHex (getField c "avgColorRGBCode")

/-- The line list built by `generateCSV` before joining. -/
def generateCSVLines (colors : List Obj) : List String :=
  "name,hex" :: colors.map csvLine

/-- Function `generateCSV` from the source. -/
def generateCSV (colors : List Obj) : String :=
  String.intercalate "\n" (generateCSVLines colors)

/-- The `(name, hex)` array built inside `generateJSON` (its `colorArray`). -/
def jsonEntries (colors : List Obj) : List (String × String) :=
  colors.map (fun c => (entryName c, rgbToHex (getField c "avgColorRGBCode")))

/-- JSON string escaping of `JSON.stringify`: `"` and `\` are backslash
escaped, the named control characters get short escapes, all other control
characters become `\u00xx`. -/
def jsonEscape : List Char → List Char
  | [] => []
  | c :: cs =>
    (if c = '"' then ['\\', '"']
     else if c = '\\' then ['\\', '\\']
     else if c = '\x08' then ['\\', 'b']
     else if c = '\t' then ['\\', 't']
     else if c = '\n' then ['\\', 'n']
     else if c = '\x0c' then ['\\', 'f']
     else if c = '\r' then ['\\', 'r']
     else if c.toNat < 32 then
       ['\\', 'u', '0', '0', hexChar (c.toNat / 16), hexChar (c.toNat % 16)]
     else [c]) ++ jsonEscape cs

/-- A JSON string literal. -/
def jsonStr (s : String) : String := "\"" ++ String.mk (jsonEscape s.data) ++ "\""

/-- One pretty-printed entry object, as `JSON.stringify(·, null, 2)` renders a
`{name, hex}` element nested one level inside an array. -/
def jsonEntryObj (e : String × String) : String :=
  "\x7b\n    \"name\": " ++ jsonStr e.1 ++ ",\n    \"hex\": " ++ jsonStr e.2 ++ "\n  \x7d"

/-- Function `generateJSON` from the source: `JSON.stringify(colorArray, null, 2)`,
modelled for the fixed array-of-`{name, hex}` shape the script builds. -/
def generateJSON (colors : List Obj) : String :=
  match jsonEntries colors with
  | [] => "[]"
  | e :: es =>
    "[\n  " ++ String.intercalate ",\n  " ((e :: es).map jsonEntryObj) ++ "\n]"

/-- XML escaping of the SVG emitter: `&`, `<`, `>` become entities (the source
applies three global replaces in that order, which is equivalent to this
single pass because no replacement output contains a later pattern). -/
def escapeXML : List Char → List Char
  | [] => []
  | c :: cs =>
    (if c = '&' then "&amp;".data
     else if c = '<' then "&lt;".data
     else if c = '>' then "&gt;".data
     else [c]) ++ escapeXML cs

/-- The RTL language codes of the script. -/
def RTL_LANGUAGES : List String := ["fa", "ar", "he", "ur"]

/-- One `<text>` element of the SVG emitter, for the entry at index `i`. -/
def svgItem (isRTL : Bool) (i : Nat) (c : Obj) : String :=
  let name := String.mk (escapeXML (entryName c).data)
  let hex := rgbToHex (getField c "avgColorRGBCode")
  if isRTL then
    "<text x=\"560\" y=\"" ++ String.mk (decRepr (20 + (i + 1) * 70)) ++ "\" fill=\""
      ++ hex ++ "\" text-anchor=\"end\" xml:lang=\"fa\" unicode-bidi=\"embed\">"
      ++ name ++ "</text>"
  else
    "<text x=\"40\" y=\"" ++ String.mk (decRepr (20 + (i + 1) * 70)) ++ "\" fill=\""
      ++ hex ++ "\">" ++ name ++ "</text>"

/-- The item list of `generateSVG` (`colors.map((color, i) => ...)`). -/
def svgItems (colors : List Obj) (langAbv : String) : List String :=
  colors.enum.map (fun p => svgItem (RTL_LANGUAGES.contains langAbv) p.1 p.2)

/-- The binding `const height = colors.length * 70 + 80`. -/
def svgHeight (colors : List Obj) : Nat := colors.length * 70 + 80

/-- The SVG template string of the script (braces written as `\x7b`/`\x7d`
and apostrophes as `\x27`; the text is byte-identical to the source). -/
def SVG_TEMPLATE : String :=
  "<svg xmlns=\"http://www.w3.org/2000/svg\" viewBox=\"0 0 600 \x7bheight\x7d\">\n  <defs>\n    <style type=\"text/css\">\n      @import url(\x27https://rsms.me/inter/inter.css\x27);\n      text \x7b\n        font-family: Inter, -apple-system, BlinkMacSystemFont, \"Segoe UI\", Roboto, Helvetica, Arial, sans-serif, \"Apple Color Emoji\", \"Segoe UI Emoji\", \"Segoe UI Symbol\";\n        font-size: 40px;\n        font-weight: 900;\n      \x7d\n    </style>\n  </defs>\n  <rect fill=\"#202124\" x=\"0\" y=\"0\" width=\"600\" height=\"\x7bheight\x7d\"/>\n  \x7bitems\x7d\n</svg>"

/-- Fuelled global replace: `String.prototype.replace` with a `g`-flagged
literal pattern (the inserted replacement is not rescanned).  The fuel bounds
the scan by the subject length, keeping the recursion structural. -/
def replaceAllAux : Nat → List Char → List Char → List Char → List Char
  | 0, s, _, _ => s
  | fuel + 1, s, pat, r =>
    if pat.isPrefixOf s ∧ pat ≠ [] then
      r ++ replaceAllAux fuel (s.drop pat.length) pat r
    else
      match s with
      | [] => []
      | c :: cs => c :: replaceAllAux fuel cs pat r

/-- Global replace of a non-empty literal pattern. -/
def replaceAllL (s pat r : List Char) : List Char := replaceAllAux s.length s pat r

/-- Function `generateSVG` from the source: substitute the height (twice) and the
joined items into the template. -/
def generateSVG (colors : List Obj) (langAbv : String) : String :=
  let items := String.intercalate "\n  " (svgItems colors langAbv)
  let height := svgHeight colors
  String.mk (replaceAllL
    (replaceAllL SVG_TEMPLATE.data "\x7bheight\x7d".data (decRepr height))
    "\x7bitems\x7d".data items.data)

/-! ### Basename resolver (`getLanguageBasename`) -/

/-- The call `replace(/\s+/g, '-')` with fuel: each run of whitespace becomes one
hyphen. -/
def collapseWSAux : Nat → List Char → List Char
  | 0, s => s
  | fuel + 1, s =>
    match s with
    | [] => []
    | c :: cs =>
      if jsSpace c then '-' :: collapseWSAux fuel (cs.dropWhile jsSpace)
      else c :: collapseWSAux fuel cs

/-- The call `replace(/\s+/g, '-')`. -/
def collapseWS (cs : List Char) : List Char := collapseWSAux cs.length cs

/-- ASCII lowercasing (`toLowerCase`; the inputs of interest are ASCII). -/
def toLowerJS (c : Char) : Char := c.toLower

/-- Function `getLanguageBasename` from the source: full language name of the first
record (falling back to the code), part before the first `(`, trimmed,
lowercased, whitespace runs hyphenated, prefixed by `langAbv-`. -/
def getLanguageBasename (langAbv : String) (colors : List Obj) : String :=
  let fullLang :=
    match colors.head? with
    | some c => if getField c "lang" ≠ "" then getField c "lang" else langAbv
    | none => langAbv
  let engl := (splitChar '(' fullLang.data).headD []
  langAbv ++ "-" ++ String.mk (collapseWS ((jsTrimList engl).map toLowerJS))

/-! ### Verifier-side definitions used to state the claims -/

/-- A raw CSV field for stating the row-scan claim: `quoted` fields are
written wrapped in `"`, unquoted ones bare. -/
structure RawField where
  quoted : Bool
  content : String
deriving DecidableEq

/-- Render one raw field. -/
def renderField (f : RawField) : List Char :=
  if f.quoted then '"' :: f.content.data ++ ['"'] else f.content.data

/-- Render a data row: fields joined by commas. -/
def renderRow : List RawField → List Char
  | [] => []
  | [f] => renderField f
  | f :: fs => renderField f ++ ',' :: renderRow fs

/-- Split a character list at its last comma (the inverse of building
`escapedName,hex`, since the hex part never contains a comma). -/
def splitAtLastComma (cs : List Char) : List Char × List Char :=
  let afterRev := cs.reverse.takeWhile (fun c => c != ',')
  match cs.reverse.drop afterRev.length with
  | _ :: beforeRev => (beforeRev.reverse, afterRev.reverse)
  | [] => ([], cs)

/-- Undo quote doubling: each `""` becomes one `"` (left to right). -/
def undouble : List Char → List Char
  | [] => []
  | [c] => [c]
  | c1 :: c2 :: rest =>
    if c1 = '"' ∧ c2 = '"' then '"' :: undouble rest
    else c1 :: undouble (c2 :: rest)

/-- Undo the CSV emitter's name quoting: strip a wrapping quote pair and
collapse doubled quotes; bare names pass through. -/
def unquoteName (cs : List Char) : List Char :=
  match cs with
  | [] => []
  | c :: rest => if c = '"' then undouble rest.dropLast else c :: rest

/-- Decode one emitted CSV data line back into its `(name, hex)` pair. -/
def decodeCSVLine (line : String) : String × String :=
  (String.mk (unquoteName (splitAtLastComma line.data).1),
   String.mk (splitAtLastComma line.data).2)

/-- Per the specification's words for the header: "splitting the header row
on unquoted commas (commas inside quoted header fields do not delimit) and
trimming whitespace from each name" — the quote-aware field scan applied to
the first line. -/
def specHeaderFields (csv : String) : List String :=
  scanRow ((csvLinesOf csv).headD [])

/-- The upstream schema's header row, in the field order of the data model
(modelled from the spec's field list; the upstream CSV is external data, not
repository code). -/
def upstreamHeader : String :=
  "lang,lang_abv,simplifiedName,commonName,avgColorRGBCode,totalColorFraction,avgL,avgA,avgB"

/-- The end-to-end scenario input: the upstream header plus one Spanish row. -/
def c9Input : String :=
  upstreamHeader ++ "\n" ++ "Spanish,es,claro,light blue,\"rgb(91, 155, 213)\",0.02,70,1,-30"

/-- Example records for the grouping scenario (languages in order
en, fr, en). -/
def recEn1 : Obj := [("lang", "English"), ("lang_abv", "en"), ("commonName", "red")]

/-- Second example record (French). -/
def recFr : Obj := [("lang", "French"), ("lang_abv", "fr"), ("commonName", "rouge")]

/-- Third example record (English again). -/
def recEn2 : Obj := [("lang", "English"), ("lang_abv", "en"), ("commonName", "blue")]

/-- Example records for the cross-format emitter comparison (one name with an
embedded comma, one out-of-range color). -/
def exEmit : List Obj :=
  [[("commonName", "deep, dark red"), ("avgColorRGBCode", "rgb(120, 3, 4)")],
   [("simplifiedName", "blue"), ("avgColorRGBCode", "rgb(-10, 300, 128)")]]

/-! ### Helper lemmas: digits, whitespace, decimal rendering -/

theorem isDigit_not_space {c : Char} (h : isDigit c = true) : jsSpace c = false := by
  simp only [isDigit, Bool.and_eq_true, decide_eq_true_eq] at h
  simp only [jsSpace, Bool.or_eq_false_iff, Bool.and_eq_false_iff, decide_eq_false_iff_not]
  omega

theorem isDigit_ne_dash {c : Char} (h : isDigit c = true) : c ≠ '-' := by
  intro e
  subst e
  simp [isDigit] at h

theorem isDigit_digitChar (d : Nat) : isDigit (digitChar d) = true := by
  match d with
  | 0 | 1 | 2 | 3 | 4 | 5 | 6 | 7 | 8 => rfl
  | n + 9 => rfl

theorem digitVal_digitChar : ∀ d, d < 10 → digitVal (digitChar d) = d := by decide

theorem decReprAux_ne_nil : ∀ f n, 0 < f → decReprAux f n ≠ [] := by
  intro f n hf
  match f with
  | fuel + 1 =>
    simp only [decReprAux]
    split
    · simp
    · simp

theorem decReprAux_digits : ∀ f n, ∀ c ∈ decReprAux f n, isDigit c = true := by
  intro f
  induction f with
  | zero => intro n c hc; simp [decReprAux] at hc
  | succ fuel ih =>
    intro n c hc
    simp only [decReprAux] at hc
    split at hc
    · simp at hc
      subst hc
      exact isDigit_digitChar n
    · rcases List.mem_append.mp hc with h | h
      · exact ih _ _ h
      · simp at h
        subst h
        exact isDigit_digitChar _

theorem decRepr_digits (n : Nat) : ∀ c ∈ decRepr n, isDigit c = true :=
  decReprAux_digits (n + 1) n

theorem decRepr_ne_nil (n : Nat) : decRepr n ≠ [] :=
  decReprAux_ne_nil (n + 1) n (Nat.succ_pos n)

theorem parseDigits_concat (xs : List Char) (c : Char) :
    parseDigits (xs ++ [c]) = parseDigits xs * 10 + digitVal c := by
  simp [parseDigits, List.foldl_append]

theorem parseDigits_decReprAux : ∀ f n, n < f → parseDigits (decReprAux f n) = n := by
  intro f
  induction f with
  | zero => intro n h; omega
  | succ fuel ih =>
    intro n h
    simp only [decReprAux]
    split
    · next hlt =>
      simp [parseDigits]
      exact digitVal_digitChar n hlt
    · next hge =>
      rw [parseDigits_concat]
      have hn : 10 ≤ n := by omega
      have hq : n / 10 < fuel := by omega
      rw [ih _ hq, digitVal_digitChar _ (Nat.mod_lt _ (by omega))]
      omega

theorem parseDigits_decRepr (n : Nat) : parseDigits (decRepr n) = n :=
  parseDigits_decReprAux (n + 1) n (Nat.lt_succ_self n)

/-! ### Helper lemmas: stepping through the RGB matcher -/

theorem dropWhile_digits (ds : List Char) (rest : List Char)
    (hne : ds ≠ []) (hd : ∀ c ∈ ds, isDigit c = true) :
    (ds ++ rest).dropWhile jsSpace = ds ++ rest := by
  match ds with
  | d :: ds' =>
    rw [List.cons_append, List.dropWhile_cons]
    simp [isDigit_not_space (hd d (by simp))]

theorem readNum_digits (ds : List Char) (sep : Char) (rest : List Char)
    (hne : ds ≠ []) (hd : ∀ c ∈ ds, isDigit c = true) (hsep : isDigit sep = false) :
    readNum (ds ++ sep :: rest) = some ((parseDigits ds : Int), sep :: rest) := by
  match ds with
  | d :: ds' =>
    have hdd : isDigit d = true := hd d (by simp)
    have hnd : d ≠ '-' := isDigit_ne_dash hdd
    have htw : ((d :: ds') ++ sep :: rest).takeWhile isDigit = d :: ds' := by
      rw [List.takeWhile_append_of_pos hd, List.takeWhile_cons]
      simp [hsep]
    have hdr : ((d :: ds') ++ sep :: rest).drop (d :: ds').length = sep :: rest :=
      List.drop_left _ _
    rw [List.cons_append] at htw hdr ⊢
    simp only [readNum, if_neg hnd]
    rw [htw]
    simp only [List.isEmpty_cons, Bool.false_eq_true, if_false]
    rw [hdr]

theorem cons_dropWhile_not {c : Char} (cs : List Char) (h : jsSpace c = false) :
    (c :: cs).dropWhile jsSpace = c :: cs := by
  rw [List.dropWhile_cons]
  simp [h]

theorem matchRGBAt_rgb (ds1 ds2 ds3 : List Char)
    (h1 : ∀ c ∈ ds1, isDigit c = true) (n1 : ds1 ≠ [])
    (h2 : ∀ c ∈ ds2, isDigit c = true) (n2 : ds2 ≠ [])
    (h3 : ∀ c ∈ ds3, isDigit c = true) (n3 : ds3 ≠ []) :
    matchRGBAt ('r' :: 'g' :: 'b' :: '(' ::
        (ds1 ++ ',' :: ' ' :: (ds2 ++ ',' :: ' ' :: (ds3 ++ [')'])))) =
      some ((parseDigits ds1 : Int), (parseDigits ds2 : Int), (parseDigits ds3 : Int)) := by
  have eA : stripRGB ('r' :: 'g' :: 'b' :: '(' ::
      (ds1 ++ ',' :: ' ' :: (ds2 ++ ',' :: ' ' :: (ds3 ++ [')'])))) =
      some ('(' :: (ds1 ++ ',' :: ' ' :: (ds2 ++ ',' :: ' ' :: (ds3 ++ [')'])))) := rfl
  have eB := cons_dropWhile_not
    (ds1 ++ ',' :: ' ' :: (ds2 ++ ',' :: ' ' :: (ds3 ++ [')'])))
    (show jsSpace '(' = false by decide)
  have eC : expectChar '('
      ('(' :: (ds1 ++ ',' :: ' ' :: (ds2 ++ ',' :: ' ' :: (ds3 ++ [')'])))) =
      some (ds1 ++ ',' :: ' ' :: (ds2 ++ ',' :: ' ' :: (ds3 ++ [')'])))  := by
    simp [expectChar]
  have eD := dropWhile_digits ds1 (',' :: ' ' :: (ds2 ++ ',' :: ' ' :: (ds3 ++ [')']))) n1 h1
  have eE := readNum_digits ds1 ',' (' ' :: (ds2 ++ ',' :: ' ' :: (ds3 ++ [')']))) n1 h1
    (show isDigit ',' = false by decide)
  have eF := cons_dropWhile_not (' ' :: (ds2 ++ ',' :: ' ' :: (ds3 ++ [')'])))
    (show jsSpace ',' = false by decide)
  have eG : expectChar ',' (',' :: ' ' :: (ds2 ++ ',' :: ' ' :: (ds3 ++ [')']))) =
      some (' ' :: (ds2 ++ ',' :: ' ' :: (ds3 ++ [')'])))  := by
    simp [expectChar]
  have eH : (' ' :: (ds2 ++ ',' :: ' ' :: (ds3 ++ [')']))).dropWhile jsSpace =
      ds2 ++ ',' :: ' ' :: (ds3 ++ [')']) := by
    rw [List.dropWhile_cons]
    simp only [show jsSpace ' ' = true by decide, if_true]
    exact dropWhile_digits ds2 _ n2 h2
  have eI := readNum_digits ds2 ',' (' ' :: (ds3 ++ [')'])) n2 h2
    (show isDigit ',' = false by decide)
  have eJ := cons_dropWhile_not (' ' :: (ds3 ++ [')'])) (show jsSpace ',' = false by decide)
  have eK : expectChar ',' (',' :: ' ' :: (ds3 ++ [')'])) = some (' ' :: (ds3 ++ [')'])) := by
    simp [expectChar]
  have eL : (' ' :: (ds3 ++ [')'])).dropWhile jsSpace = ds3 ++ [')'] := by
    rw [List.dropWhile_cons]
    simp only [show jsSpace ' ' = true by decide, if_true]
    exact dropWhile_digits ds3 _ n3 h3
  have eM : readNum (ds3 ++ [')']) = some ((parseDigits ds3 : Int), [')']) :=
    readNum_digits ds3 ')' [] n3 h3 (show isDigit ')' = false by decide)
  have eN := cons_dropWhile_not ([] : List Char) (show jsSpace ')' = false by decide)
  have eO : expectChar ')' [')'] = some [] := by simp [expectChar]
  simp only [matchRGBAt, eA, eB, eC, eD, eE, eF, eG, eH, eI, eJ, eK, eL, eM, eN, eO]

/-! ### Helper lemmas: hex formatting, checked exhaustively over `[0, 256)` -/

set_option maxRecDepth 8000 in
theorem decodePair_padStart2 : ∀ n, n < 256 → decodePair (padStart2 (natToHex n)) = some n := by
  decide

set_option maxRecDepth 8000 in
theorem padStart2_natToHex_length : ∀ n, n < 256 → (padStart2 (natToHex n)).length = 2 := by
  decide

set_option maxRecDepth 8000 in
theorem padStart2_natToHex_chars :
    ∀ n, n < 256 → ∀ c ∈ padStart2 (natToHex n), c ≠ ',' ∧ c ≠ '"' ∧ c ∈ "0123456789abcdef".data := by
  decide

theorem clampChannel_bounds (n : Int) : 0 ≤ clampChannel n ∧ clampChannel n ≤ 255 := by
  simp only [clampChannel]
  omega

theorem clampChannel_toNat_lt (n : Int) : (clampChannel n).toNat < 256 := by
  have h := clampChannel_bounds n
  omega

theorem clampChannel_of_le {n : Int} (h0 : 0 ≤ n) (h255 : n ≤ 255) : clampChannel n = n := by
  simp only [clampChannel]
  omega

/-- The emitted hex string decomposes as `#` followed by three two-character
channel fields. -/
theorem rgbToHex_data_of_find {s : String} {r g b : Int}
    (h : findRGB s.data = some (r, g, b)) :
    (rgbToHex s).data =
      '#' :: (padStart2 (natToHex (clampChannel r).toNat) ++
        (padStart2 (natToHex (clampChannel g).toNat) ++
          padStart2 (natToHex (clampChannel b).toNat))) := by
  simp only [rgbToHex, h]
  simp [String.data_append, toHex2]

/-- Decoding the emitted hex recovers the three clamped channel values. -/
theorem decodeHex_emitted (x y z : Nat) (hx : x < 256) (hy : y < 256) (hz : z < 256) :
    decodeHex (String.mk ('#' :: (padStart2 (natToHex x) ++
      (padStart2 (natToHex y) ++ padStart2 (natToHex z))))) = some (x, y, z) := by
  have lx := padStart2_natToHex_length x hx
  have ly := padStart2_natToHex_length y hy
  have lz := padStart2_natToHex_length z hz
  simp only [decodeHex]
  rw [List.take_left' lx]
  rw [List.drop_left' lx]
  rw [List.take_left' ly]
  have hd4 : (padStart2 (natToHex x) ++
      (padStart2 (natToHex y) ++ padStart2 (natToHex z))).drop 4 = padStart2 (natToHex z) := by
    have : (4 : Nat) = 2 + 2 := rfl
    rw [this, ← List.drop_drop, List.drop_left' lx, List.drop_left' ly]
  rw [hd4]
  rw [decodePair_padStart2 x hx, decodePair_padStart2 y hy, decodePair_padStart2 z hz]
  simp [List.length_append, lx, ly, lz]

theorem string_eq_of_data (s : String) (l : List Char) (h : s.data = l) : s = String.mk l := by
  cases s
  cases h
  rfl

/-- The `rgb(r, g, b)` string built from channel values matches the regex at
position 0 with exactly those values. -/
theorem findRGB_mkRGBString (r g b : Nat) :
    findRGB (mkRGBString r g b).data = some ((r : Int), (g : Int), (b : Int)) := by
  have e : (mkRGBString r g b).data =
      'r' :: 'g' :: 'b' :: '(' ::
        (decRepr r ++ ',' :: ' ' :: (decRepr g ++ ',' :: ' ' :: (decRepr b ++ [')']))) := by
    show "rgb(".data ++ decRepr r ++ ", ".data ++ decRepr g ++ ", ".data
        ++ decRepr b ++ ")".data = _
    show ['r', 'g', 'b', '('] ++ decRepr r ++ [',', ' '] ++ decRepr g ++ [',', ' ']
        ++ decRepr b ++ [')'] = _
    simp [List.append_assoc]
  have hm : matchRGBAt ('r' :: 'g' :: 'b' :: '(' ::
      (decRepr r ++ ',' :: ' ' :: (decRepr g ++ ',' :: ' ' :: (decRepr b ++ [')'])))) =
      some ((r : Int), (g : Int), (b : Int)) := by
    rw [matchRGBAt_rgb _ _ _ (decRepr_digits r) (decRepr_ne_nil r) (decRepr_digits g)
      (decRepr_ne_nil g) (decRepr_digits b) (decRepr_ne_nil b)]
    rw [parseDigits_decRepr, parseDigits_decRepr, parseDigits_decRepr]
  rw [e]
  simp only [findRGB, hm]

/-- C1: for every triple of integers r, g, b in [0, 255], `rgbToHex` applied
to the string `rgb(r, g, b)` produces a hex string whose three two-digit hex
channel components parse back to exactly r, g, b. -/
theorem claim1_rgbToHex_roundTrip (r g b : Nat) (hr : r ≤ 255) (hg : g ≤ 255) (hb : b ≤ 255) :
    decodeHex (rgbToHex (mkRGBString r g b)) = some (r, g, b) := by
  have hf := findRGB_mkRGBString r g b
  have hdata := rgbToHex_data_of_find hf
  have cr : clampChannel ((r : Int)) = (r : Int) :=
    clampChannel_of_le (Int.natCast_nonneg r) (by exact_mod_cast hr)
  have cg : clampChannel ((g : Int)) = (g : Int) :=
    clampChannel_of_le (Int.natCast_nonneg g) (by exact_mod_cast hg)
  have cb : clampChannel ((b : Int)) = (b : Int) :=
    clampChannel_of_le (Int.natCast_nonneg b) (by exact_mod_cast hb)
  rw [cr, cg, cb] at hdata
  simp only [Int.toNat_natCast] at hdata
  rw [string_eq_of_data _ _ hdata]
  exact decodeHex_emitted r g b (by omega) (by omega) (by omega)

/-- C1 witness: the round trip at the concrete triple (91, 155, 213). -/
theorem claim1_rgbToHex_roundTrip_witness :
    decodeHex (rgbToHex (mkRGBString 91 155 213)) = some (91, 155, 213) :=
  claim1_rgbToHex_roundTrip 91 155 213 (by decide) (by decide) (by decide)

/-- C2: on any string where the RGB pattern matches with channel values
r, g, b, `rgbToHex` emits `#` followed by the three channels clamped to
[0, 255] and formatted as two zero-padded lowercase hex digits each: the
result has length 7, all hex characters are lowercase hex digits, and it
decodes to the clamped channel values. -/
theorem claim2_rgbToHex_clamp_format (s : String) (r g b : Int)
    (h : findRGB s.data = some (r, g, b)) :
    rgbToHex s =
      "#" ++ toHex2 (clampChannel r) ++ toHex2 (clampChannel g) ++ toHex2 (clampChannel b) ∧
    decodeHex (rgbToHex s) =
      some ((clampChannel r).toNat, (clampChannel g).toNat, (clampChannel b).toNat) ∧
    (∀ c ∈ (rgbToHex s).data.drop 1, c ∈ "0123456789abcdef".data) ∧
    (rgbToHex s).data.length = 7 := by
  have hdata := rgbToHex_data_of_find h
  have br := clampChannel_toNat_lt r
  have bg := clampChannel_toNat_lt g
  have bb := clampChannel_toNat_lt b
  refine ⟨by simp [rgbToHex, h], ?_, ?_, ?_⟩
  · rw [string_eq_of_data _ _ hdata]
    exact decodeHex_emitted _ _ _ br bg bb
  · intro c hc
    rw [hdata] at hc
    simp only [List.drop_succ_cons, List.drop_zero] at hc
    rcases List.mem_append.mp hc with h1 | h23
    · exact ((padStart2_natToHex_chars _ br c h1).2).2
    · rcases List.mem_append.mp h23 with h2 | h3
      · exact ((padStart2_natToHex_chars _ bg c h2).2).2
      · exact ((padStart2_natToHex_chars _ bb c h3).2).2
  · rw [hdata]
    simp [padStart2_natToHex_length _ br, padStart2_natToHex_length _ bg,
      padStart2_natToHex_length _ bb]

/-- C2 witness: `rgb(-10, 300, 128)` matches with channels (-10, 300, 128)
and is emitted as the clamped `#00ff80`. -/
theorem claim2_rgbToHex_clamp_format_witness :
    findRGB "rgb(-10, 300, 128)".data = some (-10, 300, 128) ∧
    rgbToHex "rgb(-10, 300, 128)" = "#00ff80" :=
  ⟨by decide,
   (claim2_rgbToHex_clamp_format "rgb(-10, 300, 128)" (-10) 300 128 (by decide)).1.trans
     (by decide)⟩

/-- C3: on any string where the RGB pattern does not match, `rgbToHex`
returns the `#000000` sentinel (it is a total function and cannot abort). -/
theorem claim3_rgbToHex_sentinel (s : String) (h : findRGB s.data = none) :
    rgbToHex s = "#000000" := by
  simp [rgbToHex, h]

/-- C3 witness: the unparsable string `not-a-color` yields `#000000`. -/
theorem claim3_rgbToHex_sentinel_witness :
    findRGB "not-a-color".data = none ∧ rgbToHex "not-a-color" = "#000000" :=
  ⟨by decide, claim3_rgbToHex_sentinel "not-a-color" (by decide)⟩

/-! ### Helper lemmas: the row scanner -/

/-- Inside quotes, a quote-free span is appended verbatim to the current
field (commas included). -/
theorem rowGo_quoted_span (content : List Char) :
    ∀ rest cur, '"' ∉ content →
      rowGo (content ++ rest) cur true = rowGo rest (cur ++ content) true := by
  induction content with
  | nil => intro rest cur _; simp
  | cons c cs ih =>
    intro rest cur hq
    have hc : c ≠ '"' := fun e => hq (e ▸ List.mem_cons_self c cs)
    have hcs : '"' ∉ cs := fun m => hq (List.mem_cons_of_mem c m)
    rw [List.cons_append, rowGo]
    simp only [if_neg hc]
    rw [if_neg (by simp)]
    rw [ih rest (cur ++ [c]) hcs]
    rw [List.append_assoc]
    rfl

/-- Outside quotes, a quote-free and comma-free span is appended verbatim to
the current field. -/
theorem rowGo_plain_span (content : List Char) :
    ∀ rest cur, '"' ∉ content → ',' ∉ content →
      rowGo (content ++ rest) cur false = rowGo rest (cur ++ content) false := by
  induction content with
  | nil => intro rest cur _ _; simp
  | cons c cs ih =>
    intro rest cur hq hcomma
    have hc : c ≠ '"' := fun e => hq (e ▸ List.mem_cons_self c cs)
    have hc2 : c ≠ ',' := fun e => hcomma (e ▸ List.mem_cons_self c cs)
    rw [List.cons_append, rowGo]
    simp only [if_neg hc]
    rw [if_neg (by simp [hc2])]
    rw [ih rest (cur ++ [c]) (fun m => hq (List.mem_cons_of_mem c m))
      (fun m => hcomma (List.mem_cons_of_mem c m))]
    rw [List.append_assoc]
    rfl

/-- One scanner step on a quote character: toggle the flag. -/
theorem rowGo_quote (rest cur : List Char) (inQ : Bool) :
    rowGo ('"' :: rest) cur inQ = rowGo rest cur (!inQ) := by
  simp [rowGo]

/-- One scanner step on an unquoted comma: push the trimmed current field. -/
theorem rowGo_comma (rest cur : List Char) :
    rowGo (',' :: rest) cur false = String.mk (jsTrimList cur) :: rowGo rest [] false := by
  simp [rowGo]

/-- Scanning one rendered field followed by a comma pushes the trimmed field
content and continues on the rest. -/
theorem rowGo_field_comma (f : RawField) (rest : List Char)
    (hq : '"' ∉ f.content.data) (hu : f.quoted = false → ',' ∉ f.content.data) :
    rowGo (renderField f ++ ',' :: rest) [] false =
      String.mk (jsTrimList f.content.data) :: rowGo rest [] false := by
  rcases f with ⟨q, content⟩
  cases q with
  | false =>
    have hu' : ',' ∉ content.data := hu rfl
    have hrf : renderField ⟨false, content⟩ = content.data := rfl
    rw [hrf, rowGo_plain_span content.data (',' :: rest) [] hq hu', List.nil_append,
      rowGo_comma]
  | true =>
    have hrf : renderField ⟨true, content⟩ = '"' :: content.data ++ ['"'] := rfl
    rw [hrf, List.cons_append, List.cons_append, rowGo_quote, Bool.not_false,
      List.append_assoc, List.singleton_append,
      rowGo_quoted_span content.data ('"' :: ',' :: rest) [] hq,
      List.nil_append, rowGo_quote, Bool.not_true, rowGo_comma]

/-- Scanning one final rendered field pushes the trimmed field content. -/
theorem rowGo_field_last (f : RawField)
    (hq : '"' ∉ f.content.data) (hu : f.quoted = false → ',' ∉ f.content.data) :
    rowGo (renderField f) [] false = [String.mk (jsTrimList f.content.data)] := by
  rcases f with ⟨q, content⟩
  cases q with
  | false =>
    have hu' : ',' ∉ content.data := hu rfl
    have hrf : renderField ⟨false, content⟩ = content.data := rfl
    have hspan := rowGo_plain_span content.data [] [] hq hu'
    rw [List.append_nil] at hspan
    rw [hrf, hspan, List.nil_append]
    rfl
  | true =>
    have hrf : renderField ⟨true, content⟩ = '"' :: content.data ++ ['"'] := rfl
    rw [hrf, List.cons_append, rowGo_quote, Bool.not_false,
      rowGo_quoted_span content.data ['"'] [] hq, List.nil_append, rowGo_quote,
      Bool.not_true]
    rfl

/-- C4: scanning a rendered data row (any mix of quoted fields, whose content
may contain commas, and unquoted fields) yields exactly one value per field —
the trimmed field content, with commas inside quoted fields preserved as
literal text. -/
theorem claim4_scanRow_preserves_quoted_commas (fs : List RawField) (hne : fs ≠ [])
    (hq : ∀ f ∈ fs, '"' ∉ f.content.data)
    (hu : ∀ f ∈ fs, f.quoted = false → ',' ∉ f.content.data) :
    scanRow (renderRow fs) = fs.map (fun f => String.mk (jsTrimList f.content.data)) ∧
    (scanRow (renderRow fs)).length = fs.length := by
  have main : scanRow (renderRow fs) =
      fs.map (fun f => String.mk (jsTrimList f.content.data)) := by
    induction fs with
    | nil => cases hne rfl
    | cons f fs ih =>
      cases fs with
      | nil =>
        show rowGo (renderRow [f]) [] false = _
        have : renderRow [f] = renderField f := rfl
        rw [this, rowGo_field_last f (hq f (by simp)) (hu f (by simp))]
        rfl
      | cons f2 fs2 =>
        have hr : renderRow (f :: f2 :: fs2) = renderField f ++ ',' :: renderRow (f2 :: fs2) :=
          rfl
        show rowGo (renderRow (f :: f2 :: fs2)) [] false = _
        rw [hr, rowGo_field_comma f _ (hq f (by simp)) (hu f (by simp))]
        have ihh := ih (by simp)
          (fun g hg => hq g (List.mem_cons_of_mem f hg))
          (fun g hg => hu g (List.mem_cons_of_mem f hg))
        rw [show rowGo (renderRow (f2 :: fs2)) [] false = scanRow (renderRow (f2 :: fs2)) from rfl,
          ihh]
        rfl
  exact ⟨main, by rw [main, List.length_map]⟩

/-- C4 witness: the row `Language X,"rgb(1, 2, 3)",0.5` scans to exactly
three fields with the quoted comma kept. -/
theorem claim4_scanRow_preserves_quoted_commas_witness :
    renderRow [⟨false, "Language X"⟩, ⟨true, "rgb(1, 2, 3)"⟩, ⟨false, "0.5"⟩] =
      "Language X,\"rgb(1, 2, 3)\",0.5".data ∧
    scanRow "Language X,\"rgb(1, 2, 3)\",0.5".data =
      ["Language X", "rgb(1, 2, 3)", "0.5"] := by
  refine ⟨by decide, ?_⟩
  have h := (claim4_scanRow_preserves_quoted_commas
    [⟨false, "Language X"⟩, ⟨true, "rgb(1, 2, 3)"⟩, ⟨false, "0.5"⟩]
    (by decide) (by decide) (by decide)).1
  rw [show renderRow [⟨false, "Language X"⟩, ⟨true, "rgb(1, 2, 3)"⟩, ⟨false, "0.5"⟩] =
      "Language X,\"rgb(1, 2, 3)\",0.5".data from by decide] at h
  exact h.trans (by decide)

/-! ### Helper lemmas: no quote character survives the scanner (C10) -/

theorem mem_of_mem_jsTrimList {c : Char} {cs : List Char} (h : c ∈ jsTrimList cs) : c ∈ cs := by
  simp only [jsTrimList, List.mem_reverse] at h
  have h1 : c ∈ (cs.dropWhile jsSpace).reverse := (List.dropWhile_sublist _).mem h
  rw [List.mem_reverse] at h1
  exact (List.dropWhile_sublist _).mem h1

theorem rowGo_no_quote : ∀ cs cur inQ, '"' ∉ cur → ∀ v ∈ rowGo cs cur inQ, '"' ∉ v.data := by
  intro cs
  induction cs with
  | nil =>
    intro cur inQ hcur v hv hmem
    simp only [rowGo, List.mem_singleton] at hv
    subst hv
    exact hcur (mem_of_mem_jsTrimList hmem)
  | cons c cs ih =>
    intro cur inQ hcur v hv
    by_cases hcq : c = '"'
    · subst hcq
      rw [show rowGo ('"' :: cs) cur inQ = rowGo cs cur (!inQ) from by simp [rowGo]] at hv
      exact ih cur (!inQ) hcur v hv
    · by_cases hcc : c = ',' ∧ inQ = false
      · rw [show rowGo (c :: cs) cur inQ =
            String.mk (jsTrimList cur) :: rowGo cs [] inQ from by
          simp [rowGo, hcq, hcc.1, hcc.2]] at hv
        rcases List.mem_cons.mp hv with h1 | h2
        · subst h1
          intro hmem
          exact hcur (mem_of_mem_jsTrimList hmem)
        · exact ih [] inQ (by simp) v h2
      · rw [show rowGo (c :: cs) cur inQ = rowGo cs (cur ++ [c]) inQ from by
          simp only [rowGo, if_neg hcq, if_neg hcc]] at hv
        refine ih (cur ++ [c]) inQ ?_ v hv
        intro hmem
        rcases List.mem_append.mp hmem with h1 | h2
        · exact hcur h1
        · simp at h2
          exact hcq h2.symm

theorem getD_mem_or_default (values : List String) (i : Nat) :
    values.getD i "" ∈ values ∨ values.getD i "" = "" := by
  by_cases h : i < values.length
  · left
    rw [List.getD_eq_getElem _ _ h]
    exact List.getElem_mem h
  · right
    rw [List.getD_eq_default _ _ (by omega)]

/-- C10: no field value produced by `parseCSV` ever contains a double-quote
character — every `"` in a data row only toggles the in-quotes flag and is
never appended to a field value. -/
theorem claim10_parseCSV_values_quote_free (csv : String) :
    ∀ rec ∈ parseCSV csv, ∀ kv ∈ rec, '"' ∉ kv.2.data := by
  intro rec hrec kv hkv
  simp only [parseCSV, List.mem_map] at hrec
  rcases hrec with ⟨line, _, hline⟩
  subst hline
  simp only [mkObj, List.mem_map] at hkv
  rcases hkv with ⟨p, _, hp⟩
  subst hp
  rcases getD_mem_or_default (scanRow line) p.1 with h | h
  · exact rowGo_no_quote line [] false (by simp) _ h
  · rw [h]
    simp

/-- C10 witness: a doubled `""` escape is silently deleted — the quoted field
`"x""y"` parses to the value `xy`, which contains no quote. -/
theorem claim10_parseCSV_values_quote_free_witness :
    parseCSV "h1,h2\n\"x\"\"y\",z" = [[("h1", "xy"), ("h2", "z")]] ∧
    '"' ∉ ("xy" : String).data :=
  ⟨by decide,
   claim10_parseCSV_values_quote_free "h1,h2\n\"x\"\"y\",z"
     [("h1", "xy"), ("h2", "z")] (by decide) ("h1", "xy") (by decide)⟩

/-- C5 counterexample: for an input whose header row is `"a,b",c`, the code
splits inside the quoted header field (three names, quote characters kept),
which differs from the spec's unquoted-comma split (two names). -/
theorem claim5_counterexample_header_split :
    csvHeaders "\"a,b\",c\nx,y,z" = ["\"a", "b\"", "c"] ∧
    specHeaderFields "\"a,b\",c\nx,y,z" = ["a,b", "c"] ∧
    csvHeaders "\"a,b\",c\nx,y,z" ≠ specHeaderFields "\"a,b\",c\nx,y,z" :=
  ⟨by decide, by decide, by decide⟩

/-- C5 (amended): `parseCSV` obtains the field names by splitting the header
row on every comma — quote-unaware — and trimming each name; every parsed
record's field-name sequence is exactly that header list. -/
theorem claim5_amended_header_plain_split (csv : String) :
    csvHeaders csv =
      (splitChar ',' ((csvLinesOf csv).headD [])).map (fun f => String.mk (jsTrimList f)) ∧
    ∀ rec ∈ parseCSV csv, rec.map Prod.fst = csvHeaders csv := by
  refine ⟨rfl, ?_⟩
  intro rec hrec
  simp only [parseCSV, List.mem_map] at hrec
  rcases hrec with ⟨line, _, h⟩
  subst h
  simp only [mkObj, List.map_map]
  have : (Prod.fst ∘ fun p : Nat × String => (p.2, (scanRow line).getD p.1 "")) =
      Prod.snd := rfl
  rw [this, List.enum_map_snd]

/-- C5 amended witness: on a concrete two-line input the single record's keys
are the plainly split header names. -/
theorem claim5_amended_header_plain_split_witness :
    ([("lang", "x")] : Obj).map Prod.fst = csvHeaders "lang\nx" :=
  (claim5_amended_header_plain_split "lang\nx").2 [("lang", "x")] (by decide)

/-! ### Helper lemmas: grouping (C6) -/

theorem findGroup_groupStep (m : List (String × List Obj)) (c : Obj) (k : String) :
    findGroup (groupStep m c) k =
      if k = langKey c then some ((findGroup m k).getD [] ++ [c]) else findGroup m k := by
  simp only [groupStep]
  have hpred : ((fun p : String × List Obj => decide (p.1 = k)) ∘
      (fun p : String × List Obj => if p.1 = langKey c then (p.1, p.2 ++ [c]) else p)) =
      (fun p : String × List Obj => decide (p.1 = k)) := by
    funext p
    by_cases hp : p.1 = langKey c
    · simp [Function.comp, hp]
    · simp [Function.comp, hp]
  by_cases hany : m.any (fun p => decide (p.1 = langKey c)) = true
  · rw [if_pos hany]
    have hfmap : ((m.map (fun p => if p.1 = langKey c then (p.1, p.2 ++ [c]) else p)).find?
        (fun p => decide (p.1 = k))) =
        (m.find? (fun p => decide (p.1 = k))).map
          (fun p => if p.1 = langKey c then (p.1, p.2 ++ [c]) else p) := by
      rw [List.find?_map, hpred]
    by_cases hk : k = langKey c
    · rcases hf : m.find? (fun p => decide (p.1 = k)) with _ | p
      · exfalso
        rw [List.find?_eq_none] at hf
        rcases List.any_eq_true.mp hany with ⟨p, hp, hpk⟩
        have hp1 : p.1 = langKey c := by simpa using hpk
        have hne := hf p hp
        simp only [decide_eq_true_eq] at hne
        exact hne (hp1.trans hk.symm)
      · have hpk : p.1 = k := by simpa using List.find?_some hf
        have hupd : (if p.1 = langKey c then (p.1, p.2 ++ [c]) else p) = (p.1, p.2 ++ [c]) :=
          if_pos (hpk.trans hk)
        simp only [findGroup, hfmap, hf, Option.map, hupd, if_pos hk]
        simp [hpk]
    · rcases hf : m.find? (fun p => decide (p.1 = k)) with _ | p
      · simp [findGroup, hfmap, hf, if_neg hk]
      · have hpk : p.1 = k := by simpa using List.find?_some hf
        have hpc : ¬ p.1 = langKey c := fun h => hk (hpk.symm.trans h)
        simp [findGroup, hfmap, hf, hpc, if_neg hk]
  · rw [if_neg hany]
    have hnonec : m.find? (fun p => decide (p.1 = langKey c)) = none := by
      rw [List.find?_eq_none]
      intro p hp
      simp only [decide_eq_true_eq]
      exact fun hpk => hany (List.any_eq_true.mpr ⟨p, hp, by simpa using hpk⟩)
    by_cases hk : k = langKey c
    · have hfk : m.find? (fun p => decide (p.1 = k)) = none := by
        rw [hk]
        exact hnonec
      have hsing : ([(langKey c, [c])].find? (fun p => decide (p.1 = k))) =
          some (langKey c, [c]) := by
        simp [List.find?, hk]
      simp [findGroup, List.find?_append, hfk, hsing, if_pos hk]
    · have hsing : ([(langKey c, [c])].find? (fun p => decide (p.1 = k))) = none := by
        simp only [List.find?]
        rw [decide_eq_false (fun h => hk h.symm)]
      simp only [findGroup, List.find?_append, hsing, Option.or_none, if_neg hk]

theorem findGroup_foldl (colors : List Obj) :
    ∀ (m : List (String × List Obj)) (k : String),
      (findGroup (colors.foldl groupStep m) k).getD [] =
        (findGroup m k).getD [] ++ colors.filter (fun c => decide (langKey c = k)) ∧
      (findGroup (colors.foldl groupStep m) k = none ↔
        findGroup m k = none ∧ colors.filter (fun c => decide (langKey c = k)) = []) := by
  induction colors with
  | nil => intro m k; simp
  | cons c cs ih =>
    intro m k
    rw [List.foldl_cons]
    have step := findGroup_groupStep m c k
    by_cases hk : langKey c = k
    · rw [if_pos hk.symm] at step
      have hfil : (c :: cs).filter (fun c => decide (langKey c = k)) =
          c :: cs.filter (fun c => decide (langKey c = k)) := by
        simp [List.filter_cons, hk]
      constructor
      · rw [(ih (groupStep m c) k).1, step, hfil]
        simp [List.append_assoc]
      · rw [(ih (groupStep m c) k).2, step, hfil]
        simp
    · rw [if_neg (fun h => hk h.symm)] at step
      have hfil : (c :: cs).filter (fun c => decide (langKey c = k)) =
          cs.filter (fun c => decide (langKey c = k)) := by
        simp [List.filter_cons, hk]
      constructor
      · rw [(ih (groupStep m c) k).1, step, hfil]
      · rw [(ih (groupStep m c) k).2, step, hfil]

/-- C6: `groupByLanguage` partitions the records: looking up any key in the
produced map yields exactly the input records whose language key
(`lang_abv`, falling back to `lang`) equals it, in input order — and no
group exists for a key with no records. -/
theorem claim6_groupByLanguage_partitions (colors : List Obj) (k : String) :
    findGroup (groupByLanguage colors) k =
      if colors.filter (fun c => decide (langKey c = k)) = [] then none
      else some (colors.filter (fun c => decide (langKey c = k))) := by
  have h := findGroup_foldl colors [] k
  have hbase : findGroup ([] : List (String × List Obj)) k = none := rfl
  rw [hbase] at h
  simp only [Option.getD_none, List.nil_append] at h
  by_cases hfil : colors.filter (fun c => decide (langKey c = k)) = []
  · rw [if_pos hfil]
    exact h.2.mpr ⟨by simp, hfil⟩
  · rw [if_neg hfil]
    rcases hf : findGroup (colors.foldl groupStep []) k with _ | g
    · exact absurd ((h.2.mp (by simpa [groupByLanguage] using hf)).2) hfil
    · have := h.1
      rw [show colors.foldl groupStep [] = groupByLanguage colors from rfl] at hf this
      rw [hf] at this
      simp only [Option.getD_some] at this
      rw [hf, this]

/-- C6 witness: for records with languages in order en, fr, en, the `en`
group is exactly the two English records in original relative order. -/
theorem claim6_groupByLanguage_partitions_witness :
    findGroup (groupByLanguage [recEn1, recFr, recEn2]) "en" = some [recEn1, recEn2] := by
  rw [claim6_groupByLanguage_partitions [recEn1, recFr, recEn2] "en"]
  decide

/-! ### Helper lemmas: CSV line decoding (C7) -/

theorem doubleQuotes_ne_nil {cs : List Char} (h : cs ≠ []) : doubleQuotes cs ≠ [] := by
  match cs with
  | c :: cs' =>
    simp only [doubleQuotes]
    split
    · simp
    · simp

theorem undouble_doubleQuotes : ∀ cs, undouble (doubleQuotes cs) = cs := by
  intro cs
  induction cs with
  | nil => rfl
  | cons c cs ih =>
    by_cases hc : c = '"'
    · subst hc
      rw [show doubleQuotes ('"' :: cs) = '"' :: '"' :: doubleQuotes cs from by
        simp [doubleQuotes]]
      cases hd : doubleQuotes cs with
      | nil =>
        have : cs = [] := by
          by_contra hne
          exact doubleQuotes_ne_nil hne hd
        subst this
        rfl
      | cons d ds =>
        rw [show undouble ('"' :: '"' :: d :: ds) = '"' :: undouble (d :: ds) from by
          simp [undouble]]
        rw [← hd, ih]
    · rw [show doubleQuotes (c :: cs) = c :: doubleQuotes cs from by simp [doubleQuotes, hc]]
      cases hd : doubleQuotes cs with
      | nil =>
        have : cs = [] := by
          by_contra hne
          exact doubleQuotes_ne_nil hne hd
        subst this
        rfl
      | cons d ds =>
        rw [show undouble (c :: d :: ds) = c :: undouble (d :: ds) from by
          simp [undouble, hc]]
        rw [← hd, ih]

theorem unquoteName_escapeCSVName (name : String) :
    unquoteName (escapeCSVName name).data = name.data := by
  by_cases hcond : (name.data.contains ',' || name.data.contains '"') = true
  · rw [show escapeCSVName name = "\"" ++ String.mk (doubleQuotes name.data) ++ "\"" from by
      simp only [escapeCSVName, if_pos hcond]]
    rw [String.data_append, String.data_append]
    rw [show ("\"" : String).data = ['"'] from rfl]
    rw [show (String.mk (doubleQuotes name.data)).data = doubleQuotes name.data from rfl]
    rw [List.singleton_append, List.cons_append]
    rw [show unquoteName ('"' :: (doubleQuotes name.data ++ ['"'])) =
        undouble ((doubleQuotes name.data ++ ['"']).dropLast) from by simp [unquoteName]]
    rw [List.dropLast_concat]
    exact undouble_doubleQuotes name.data
  · have hq : '"' ∉ name.data := by
      rw [Bool.or_eq_true] at hcond
      push_neg at hcond
      simpa using hcond.2
    rw [show escapeCSVName name = name from by simp only [escapeCSVName, if_neg hcond]]
    cases hd : name.data with
    | nil => rfl
    | cons c rest =>
      have hc : c ≠ '"' := by
        intro e
        subst e
        exact hq (by rw [hd]; exact List.mem_cons_self _ _)
      simp only [unquoteName, if_neg hc]

theorem rgbToHex_no_comma_no_quote (s : String) :
    ',' ∉ (rgbToHex s).data ∧ '"' ∉ (rgbToHex s).data := by
  rcases hf : findRGB s.data with _ | ⟨r, g, b⟩
  · rw [show rgbToHex s = "#000000" from by simp [rgbToHex, hf]]
    decide
  · rw [rgbToHex_data_of_find hf]
    have br := clampChannel_toNat_lt r
    have bg := clampChannel_toNat_lt g
    have bb := clampChannel_toNat_lt b
    constructor
    · intro hmem
      rcases List.mem_cons.mp hmem with h | h
      · cases h
      · rcases List.mem_append.mp h with h1 | h23
        · exact (padStart2_natToHex_chars _ br ',' h1).1 rfl
        · rcases List.mem_append.mp h23 with h2 | h3
          · exact (padStart2_natToHex_chars _ bg ',' h2).1 rfl
          · exact (padStart2_natToHex_chars _ bb ',' h3).1 rfl
    · intro hmem
      rcases List.mem_cons.mp hmem with h | h
      · cases h
      · rcases List.mem_append.mp h with h1 | h23
        · exact ((padStart2_natToHex_chars _ br '"' h1).2).1 rfl
        · rcases List.mem_append.mp h23 with h2 | h3
          · exact ((padStart2_natToHex_chars _ bg '"' h2).2).1 rfl
          · exact ((padStart2_natToHex_chars _ bb '"' h3).2).1 rfl

theorem splitAtLastComma_append (a b : List Char) (hb : ',' ∉ b) :
    splitAtLastComma (a ++ ',' :: b) = (a, b) := by
  have hrev : (a ++ ',' :: b).reverse = b.reverse ++ ',' :: a.reverse := by
    simp
  have htk : ((a ++ ',' :: b).reverse).takeWhile (fun c => c != ',') = b.reverse := by
    rw [hrev, List.takeWhile_append_of_pos (by
      intro x hx
      rw [List.mem_reverse] at hx
      have hxne : x ≠ ',' := fun e => hb (e ▸ hx)
      simpa using hxne)]
    rw [List.takeWhile_cons]
    simp
  have hdr : ((a ++ ',' :: b).reverse).drop b.reverse.length = ',' :: a.reverse := by
    rw [hrev]
    exact List.drop_left _ _
  simp only [splitAtLastComma, htk, hdr]
  simp

/-- Decoding one emitted CSV line recovers exactly the `(name, hex)` pair. -/
theorem decodeCSVLine_csvLine (c : Obj) :
    decodeCSVLine (csvLine c) = (entryName c, rgbToHex (getField c "avgColorRGBCode")) := by
  have hdata : (csvLine c).data =
      (escapeCSVName (entryName c)).data ++ ',' ::
        (rgbToHex (getField c "avgColorRGBCode")).data := by
    simp only [csvLine, String.data_append]
    simp [List.append_assoc]
  simp only [decodeCSVLine, hdata]
  rw [splitAtLastComma_append _ _ (rgbToHex_no_comma_no_quote _).1]
  rw [unquoteName_escapeCSVName]

/-- C7: for every record sequence, undoing the CSV emitter's name quoting on
its data lines yields exactly the `(name, hex)` pairs that the JSON emitter
builds, in identical order. -/
theorem claim7_csv_json_entries_agree (colors : List Obj) :
    ((generateCSVLines colors).drop 1).map decodeCSVLine = jsonEntries colors ∧
    ((generateCSVLines colors).drop 1).length = (jsonEntries colors).length := by
  have main : ((generateCSVLines colors).drop 1).map decodeCSVLine = jsonEntries colors := by
    simp only [generateCSVLines, List.drop_succ_cons, List.drop_zero, List.map_map]
    rw [show decodeCSVLine ∘ csvLine =
        (fun c => (entryName c, rgbToHex (getField c "avgColorRGBCode"))) from
      funext (fun c => decodeCSVLine_csvLine c)]
    rfl
  refine ⟨main, ?_⟩
  rw [← main, List.length_map]

/-- C7 witness: on two concrete records (one name containing a comma, one
out-of-range color), the decoded CSV lines equal the JSON entries. -/
theorem claim7_csv_json_entries_agree_witness :
    ((generateCSVLines exEmit).drop 1).map decodeCSVLine = jsonEntries exEmit ∧
    jsonEntries exEmit = [("deep, dark red", "#780304"), ("blue", "#00ff80")] :=
  ⟨(claim7_csv_json_entries_agree exEmit).1, by decide⟩

/-- C8: the SVG emitter lays out a fixed-width-600 canvas whose height is
70 · n + 80 for n entries, with one text element per entry at vertical
position 20 + (i + 1) · 70, filled with the entry's hex color (left-anchored
at x = 40 for non-RTL languages). -/
theorem claim8_generateSVG_layout (colors : List Obj) (langAbv : String) :
    svgHeight colors = 70 * colors.length + 80 ∧
    (svgItems colors langAbv).length = colors.length ∧
    (∀ i c, colors[i]? = some c →
      (svgItems colors langAbv)[i]? =
        some (svgItem (RTL_LANGUAGES.contains langAbv) i c) ∧
      (RTL_LANGUAGES.contains langAbv = false →
        svgItem (RTL_LANGUAGES.contains langAbv) i c =
          "<text x=\"40\" y=\"" ++ String.mk (decRepr (20 + (i + 1) * 70)) ++ "\" fill=\""
            ++ rgbToHex (getField c "avgColorRGBCode") ++ "\">"
            ++ String.mk (escapeXML (entryName c).data) ++ "</text>")) ∧
    generateSVG colors langAbv =
      String.mk (replaceAllL
        (replaceAllL SVG_TEMPLATE.data "\x7bheight\x7d".data (decRepr (svgHeight colors)))
        "\x7bitems\x7d".data
        (String.intercalate "\n  " (svgItems colors langAbv)).data) ∧
    "viewBox=\"0 0 600 \x7bheight\x7d\"".data <:+: SVG_TEMPLATE.data := by
  refine ⟨by simp [svgHeight, Nat.mul_comm], ?_, ?_, rfl, by decide⟩
  · simp [svgItems, List.enum_length]
  · intro i c hc
    constructor
    · simp [svgItems, List.getElem?_map, List.getElem?_enum, hc]
    · intro hrtl
      rw [hrtl]
      simp [svgItem]

/-- C8 witness: for the two concrete records, height is 220 and the second
text element sits at y = 160 with its entry's color. -/
theorem claim8_generateSVG_layout_witness :
    svgHeight exEmit = 220 ∧
    (svgItems exEmit "en")[1]? =
      some (svgItem (RTL_LANGUAGES.contains "en") 1
        [("simplifiedName", "blue"), ("avgColorRGBCode", "rgb(-10, 300, 128)")]) := by
  refine ⟨(claim8_generateSVG_layout exEmit "en").1.trans (by decide), ?_⟩
  exact ((claim8_generateSVG_layout exEmit "en").2.2.1 1
    [("simplifiedName", "blue"), ("avgColorRGBCode", "rgb(-10, 300, 128)")] (by decide)).1

/-- C9: the end-to-end scenario — parsing the upstream-schema header plus the
single Spanish row, grouping, naming and JSON emission yield the `es` group,
the `es-spanish` basename, and exactly one entry (light blue, #5b9bd5). -/
theorem claim9_end_to_end_spanish :
    groupByLanguage (parseCSV c9Input) = [("es", parseCSV c9Input)] ∧
    parseCSV c9Input = [[("lang", "Spanish"), ("lang_abv", "es"),
      ("simplifiedName", "claro"), ("commonName", "light blue"),
      ("avgColorRGBCode", "rgb(91, 155, 213)"), ("totalColorFraction", "0.02"),
      ("avgL", "70"), ("avgA", "1"), ("avgB", "-30")]] ∧
    getLanguageBasename "es" (parseCSV c9Input) = "es-spanish" ∧
    jsonEntries (parseCSV c9Input) = [("light blue", "#5b9bd5")] ∧
    generateJSON (parseCSV c9Input) =
      "[\n  \x7b\n    \"name\": \"light blue\",\n    \"hex\": \"#5b9bd5\"\n  \x7d\n]" :=
  ⟨by decide, by decide, by decide, by decide, by decide⟩
